import Mathlib

/-!
Shallow embedding of the simulation core of the `dwarves-in-space` Pong clone.

The state type `Pong`, its `on_start`/`update` callbacks and the entity
initialisers are translated from `src/src/pong.rs`.  Scalar quantities that the
source stores as `f32` are modelled as rationals (`ℚ`); every operation the
core performs on them (addition, subtraction, negation, comparison, clamping)
is exact on the values the game uses, so no rounding behaviour is lost.

The entity/component store is modelled as a list of entity records, one record
per created entity, in creation order; each record holds the optional
components the core attaches (`Ball`, `Paddle`, `Transform`, plus a flag for
the presence of a `SpriteRender`).  `world.create_entity().with(..).build()`
becomes appending one record to the list.

The three per-tick systems (`PaddleSystem`, `MoveBallsSystem`, `BounceSystem`)
are re-exported by `src/src/systems/mod.rs` but their files are not part of the
sources at hand; they are modelled from the specification text (sections 4.2,
4.4, 4.5) and marked as such in their doc comments.
-/

attribute [local semireducible] Rat.sub Rat.add Rat.mul Rat.inv

namespace DwarvesInSpace

/-- Arena constants from `src/src/pong.rs` lines 18-19. -/
def ARENA_HEIGHT : ℚ := 100

/-- Arena width constant from `src/src/pong.rs` line 19. -/
def ARENA_WIDTH : ℚ := 100

/-- Paddle constants from `src/src/pong.rs` lines 127-128. -/
def PADDLE_HEIGHT : ℚ := 16

/-- Paddle width constant from `src/src/pong.rs` line 128. -/
def PADDLE_WIDTH : ℚ := 4

/-- Ball constants from `src/src/pong.rs` lines 213-215. -/
def BALL_VELOCITY_X : ℚ := 45

/-- Ball y-velocity constant from `src/src/pong.rs` line 214. -/
def BALL_VELOCITY_Y : ℚ := 20

/-- Ball radius constant from `src/src/pong.rs` line 215. -/
def BALL_RADIUS : ℚ := 2

/-- A 2-D transform (translation), the part of `amethyst::core::Transform`
the core reads and writes via `set_translation_xyz`. -/
structure Transform where
  x : ℚ
  y : ℚ
  z : ℚ
  deriving DecidableEq, Repr

/-- `Side`, `src/src/pong.rs` lines 130-134. -/
inductive Side where
  | Left
  | Right
  deriving DecidableEq, Repr

/-- `Paddle`, `src/src/pong.rs` lines 136-140. -/
structure Paddle where
  side : Side
  width : ℚ
  height : ℚ
  deriving DecidableEq, Repr

/-- `Paddle::new`, `src/src/pong.rs` lines 142-150. -/
def Paddle.new (side : Side) : Paddle :=
  { side := side, width := PADDLE_WIDTH, height := PADDLE_HEIGHT }

/-- `Ball`, `src/src/pong.rs` lines 217-220.  `velocity: [f32; 2]` becomes a
pair. -/
structure Ball where
  velocity : ℚ × ℚ
  radius : ℚ
  deriving DecidableEq, Repr

/-- One entity of the store: the components the simulation core can attach.
`sprite` records the presence of a `SpriteRender` component. -/
structure EntityRec where
  ball : Option Ball := none
  paddle : Option Paddle := none
  transform : Option Transform := none
  sprite : Bool := false
  deriving DecidableEq, Repr

/-- The entity/component store, in entity-creation order. -/
abbrev World := List EntityRec

/-- `initialise_paddles`, `src/src/pong.rs` lines 157-187: creates the left
plank entity then the right plank entity, each with a sprite, a `Paddle`
component and a transform at `(PADDLE_WIDTH * 0.5, ARENA_HEIGHT / 2.0)` resp.
`(ARENA_WIDTH - PADDLE_WIDTH * 0.5, ARENA_HEIGHT / 2.0)`. -/
def initialise_paddles (world : World) : World :=
  world ++
    [{ paddle := some (Paddle.new Side.Left),
       transform := some ⟨PADDLE_WIDTH * (1 / 2), ARENA_HEIGHT / 2, 0⟩,
       sprite := true },
     { paddle := some (Paddle.new Side.Right),
       transform := some ⟨ARENA_WIDTH - PADDLE_WIDTH * (1 / 2), ARENA_HEIGHT / 2, 0⟩,
       sprite := true }]

/-- `initialise_ball`, `src/src/pong.rs` lines 227-248: creates one entity
with a sprite, a `Ball { radius: BALL_RADIUS, velocity: [BALL_VELOCITY_X,
BALL_VELOCITY_Y] }` component and a transform at
`(ARENA_WIDTH / 2.0, ARENA_HEIGHT / 2.0, 0.0)`. -/
def initialise_ball (world : World) : World :=
  world ++
    [{ ball := some { velocity := (BALL_VELOCITY_X, BALL_VELOCITY_Y), radius := BALL_RADIUS },
       transform := some ⟨ARENA_WIDTH / 2, ARENA_HEIGHT / 2, 0⟩,
       sprite := true }]

/-- The `Pong` state struct, `src/src/pong.rs` lines 39-43.  The sprite-sheet
handle is an opaque asset reference; only its presence matters to the core. -/
structure Pong where
  ball_spawn_timer : Option ℚ := none
  sprite_sheet_handle : Option Unit := none
  deriving DecidableEq, Repr

/-- The possible state transitions a `SimpleState` callback can request
(`amethyst`'s `SimpleTrans`); the core only ever uses `Trans::None`. -/
inductive SimpleTrans where
  | none
  | pop
  | push
  | switch
  | quit
  deriving DecidableEq, Repr

/-- `Pong::on_start`, `src/src/pong.rs` lines 46-106, restricted to the
entities and state the simulation core owns: arm the spawn timer with 3.0,
load the sprite sheet, create the two paddles, then create the debug-lines
entity and the camera entity (whose transform depends on the screen
dimensions).  Asset loading and the debug-grid line contents are presentation
plumbing carried by the record fields that represent them. -/
def Pong.on_start (p : Pong) (world : World) (screenW screenH : ℚ) : Pong × World :=
  let p := { p with ball_spawn_timer := some 3, sprite_sheet_handle := some () }
  let world := initialise_paddles world
  let world := world ++ [{ sprite := false }]
  let world := world ++ [{ transform := some ⟨screenW / 2, screenH / 2, 10⟩ }]
  (p, world)

/-- `Pong::update`, `src/src/pong.rs` lines 108-124: `take()` the timer if
present, subtract the frame's `delta_seconds`, spawn the ball if the result is
`<= 0.0`, otherwise put the decremented timer back; always return
`Trans::None`. -/
def Pong.update (p : Pong) (world : World) (dt : ℚ) : Pong × World × SimpleTrans :=
  match p.ball_spawn_timer with
  | some timer =>
      let timer := timer - dt
      if timer ≤ 0 then
        ({ p with ball_spawn_timer := none }, initialise_ball world, SimpleTrans.none)
      else
        ({ p with ball_spawn_timer := some timer }, world, SimpleTrans.none)
  | none => (p, world, SimpleTrans.none)

/-- Session start: `Pong::default()` followed by `on_start` on a fresh store. -/
def sessionStart (screenW screenH : ℚ) : Pong × World :=
  Pong.on_start { ball_spawn_timer := none } [] screenW screenH

/-- `f32::clamp` on exact values: `clamp x lo hi = max lo (min x hi)`
(for `lo ≤ hi` this agrees with Rust's clamp). -/
def clamp (x lo hi : ℚ) : ℚ := max lo (min x hi)

/-- Modelled from the spec: `PaddleSystem` (section 4.2); the file
`src/systems/paddle.rs` is re-exported by `src/src/systems/mod.rs` but its
code is not among the sources.  Per entity with a `Paddle` and a transform:
`new_y = clamp(old_y + input * speed * dt, height/2, ARENA_HEIGHT - height/2)`,
where `input` is the per-side input axis scalar and `speed` the tunable
configuration constant. -/
def paddleEntity (speed : ℚ) (inputs : Side → ℚ) (dt : ℚ) (e : EntityRec) : EntityRec :=
  match e.paddle, e.transform with
  | some p, some t =>
      let y := clamp (t.y + inputs p.side * speed * dt) (p.height / 2) (ARENA_HEIGHT - p.height / 2)
      { e with transform := some { t with y := y } }
  | _, _ => e

/-- Modelled from the spec: `PaddleSystem` run over the whole store. -/
def paddle_system (speed : ℚ) (inputs : Side → ℚ) (dt : ℚ) (world : World) : World :=
  world.map (paddleEntity speed inputs dt)

/-- Modelled from the spec: `MoveBallsSystem` (section 4.4); the file
`src/systems/move_balls.rs` is not among the sources.  For each entity with a
`Ball` and a transform: `position' = position + velocity * dt`. -/
def moveEntity (dt : ℚ) (e : EntityRec) : EntityRec :=
  match e.ball, e.transform with
  | some b, some t =>
      let t := { t with x := t.x + b.velocity.1 * dt, y := t.y + b.velocity.2 * dt }
      { e with transform := some t }
  | _, _ => e

/-- Modelled from the spec: `MoveBallsSystem` run over the whole store. -/
def move_balls (dt : ℚ) (world : World) : World :=
  world.map (moveEntity dt)

/-- The paddle-with-transform component pair of an entity, when both are
present. -/
def paddleComp (e : EntityRec) : Option (Paddle × Transform) :=
  match e.paddle, e.transform with
  | some p, some t => some (p, t)
  | _, _ => none

/-- The paddles currently in the store, with their transforms, in store
order. -/
def paddlesOf (world : World) : List (Paddle × Transform) :=
  world.filterMap paddleComp

/-- Modelled from the spec: the axis-aligned bounding-box overlap test of
section 4.5 between the ball's `(position ± radius)` square and a paddle's
`(position ± width/2, ± height/2)` rectangle. -/
def overlaps (t : Transform) (r : ℚ) (p : Paddle) (pt : Transform) : Prop :=
  t.x - r ≤ pt.x + p.width / 2 ∧ pt.x - p.width / 2 ≤ t.x + r ∧
    t.y - r ≤ pt.y + p.height / 2 ∧ pt.y - p.height / 2 ≤ t.y + r

instance (t : Transform) (r : ℚ) (p : Paddle) (pt : Transform) :
    Decidable (overlaps t r p pt) := by
  unfold overlaps; exact inferInstance

/-- Modelled from the spec: one ball-paddle reflection step of section 4.5.
On overlap, flip `velocity.x`; the left paddle only reflects a leftward-moving
ball (`velocity.x < 0`), the right paddle only a rightward-moving one
(`velocity.x > 0`). -/
def paddleReflect (t : Transform) (r : ℚ) (b : Ball) (ppt : Paddle × Transform) : Ball :=
  if overlaps t r ppt.1 ppt.2 ∧
      ((ppt.1.side = Side.Left ∧ b.velocity.1 < 0) ∨
        (ppt.1.side = Side.Right ∧ 0 < b.velocity.1)) then
    { b with velocity := (-b.velocity.1, b.velocity.2) }
  else b

/-- Modelled from the spec: `BounceSystem` (section 4.5) acting on one entity;
the file `src/systems/bounce.rs` is not among the sources.  For an entity with
a `Ball` and a transform, in this fixed order: (1) top/bottom wall test —
if `y - radius <= 0` or `y + radius >= ARENA_HEIGHT`, flip `velocity.y` and
clamp the position back inside bounds; (2) paddle overlap test for each paddle
in store order; (3) out-of-bounds removal — if `x + radius < 0` or
`x - radius > ARENA_WIDTH`, destroy the entity (`none`).  Entities without a
ball pass through unchanged. -/
def bounceEntity (ps : List (Paddle × Transform)) (e : EntityRec) : Option EntityRec :=
  match e.ball, e.transform with
  | some b, some t =>
      let bt : Ball × Transform :=
        if t.y - b.radius ≤ 0 ∨ ARENA_HEIGHT ≤ t.y + b.radius then
          ({ b with velocity := (b.velocity.1, -b.velocity.2) },
           { t with y := clamp t.y b.radius (ARENA_HEIGHT - b.radius) })
        else (b, t)
      let b := ps.foldl (paddleReflect bt.2 bt.1.radius) bt.1
      if bt.2.x + b.radius < 0 ∨ ARENA_WIDTH < bt.2.x - b.radius then none
      else some { e with ball := some b, transform := some bt.2 }
  | _, _ => some e

/-- Modelled from the spec: `BounceSystem` run over the whole store. -/
def bounce_system (world : World) : World :=
  world.filterMap (bounceEntity (paddlesOf world))

/-- One invocation of one of the three per-tick systems. -/
inductive SysOp where
  | paddles (speed : ℚ) (inputs : Side → ℚ) (dt : ℚ)
  | move (dt : ℚ)
  | bounce

/-- Apply one system invocation to the store. -/
def applySysOp (world : World) : SysOp → World
  | SysOp.paddles speed inputs dt => paddle_system speed inputs dt world
  | SysOp.move dt => move_balls dt world
  | SysOp.bounce => bounce_system world

/-- Apply a sequence of system invocations. -/
def applySysOps (world : World) (ops : List SysOp) : World :=
  ops.foldl applySysOp world

/-- One step of a session: either a `Pong::update` callback with the frame's
`dt`, or one system invocation. -/
inductive Step where
  | tick (dt : ℚ)
  | sys (op : SysOp)

/-- Apply one step to the session state. -/
def applyStep (s : Pong × World) : Step → Pong × World
  | Step.tick dt => ((Pong.update s.1 s.2 dt).1, (Pong.update s.1 s.2 dt).2.1)
  | Step.sys op => (s.1, applySysOp s.2 op)

/-- Apply a sequence of steps to the session state. -/
def applySteps (s : Pong × World) (steps : List Step) : Pong × World :=
  steps.foldl applyStep s

/-- A sequence of plain `update` ticks. -/
def runTicks (s : Pong × World) (dts : List ℚ) : Pong × World :=
  applySteps s (dts.map Step.tick)

/-- The ball components currently in the store, in store order. -/
def ballsOf (world : World) : List Ball :=
  world.filterMap fun e => e.ball

/-- The entities currently carrying a ball component, in store order. -/
def ballEntities (world : World) : World :=
  world.filter fun e => e.ball.isSome

/-- Number of ball entities in the store. -/
def ballCount (world : World) : ℕ :=
  (ballsOf world).length

/-- The observable paddle signature of one entity: side, width, height and
horizontal position, when the entity is a paddle. -/
def sigEntry (e : EntityRec) : Option (Side × ℚ × ℚ × ℚ) :=
  match e.paddle, e.transform with
  | some p, some t => some (p.side, p.width, p.height, t.x)
  | _, _ => none

/-- The observable paddle data that must stay fixed for a whole session:
side, width, height and horizontal position of every paddle, in store
order. -/
def paddleSig (world : World) : List (Side × ℚ × ℚ × ℚ) :=
  world.filterMap sigEntry

/-- A store is well formed when no entity carries both a ball and a paddle;
the core only ever creates entities with at most one of the two. -/
def wfWorld (world : World) : Prop :=
  ∀ e ∈ world, e.ball.isSome → e.paddle = none

instance (world : World) : Decidable (wfWorld world) := by
  unfold wfWorld
  exact inferInstance

/-- A ball entity whose vertical span stays strictly inside the top/bottom
walls (so the wall test of the bounce system does not fire on it). -/
def strictlyInsideWalls (e : EntityRec) : Prop :=
  match e.ball, e.transform with
  | some b, some t => b.radius < t.y ∧ t.y + b.radius < ARENA_HEIGHT
  | _, _ => True

instance (e : EntityRec) : Decidable (strictlyInsideWalls e) := by
  unfold strictlyInsideWalls
  cases e.ball <;> cases e.transform <;> exact inferInstance

/-- The reachability invariant of a session: the store is well formed, the
two paddles created at session start are intact, and the spawn timer is
armed exactly while no ball exists (with never more than one ball). -/
def Inv (s : Pong × World) : Prop :=
  wfWorld s.2 ∧
    paddleSig s.2 =
      [(Side.Left, PADDLE_WIDTH, PADDLE_HEIGHT, PADDLE_WIDTH * (1 / 2)),
       (Side.Right, PADDLE_WIDTH, PADDLE_HEIGHT, ARENA_WIDTH - PADDLE_WIDTH * (1 / 2))] ∧
    ((s.1.ball_spawn_timer.isSome ∧ ballCount s.2 = 0) ∨
      (s.1.ball_spawn_timer = none ∧ ballCount s.2 ≤ 1))

/-! ### Pointwise lemmas about the per-entity system functions -/

theorem paddleEntity_ball (speed : ℚ) (inputs : Side → ℚ) (dt : ℚ) (e : EntityRec) :
    (paddleEntity speed inputs dt e).ball = e.ball := by
  cases hp : e.paddle <;> cases ht : e.transform <;> simp [paddleEntity, hp, ht]

theorem paddleEntity_paddle (speed : ℚ) (inputs : Side → ℚ) (dt : ℚ) (e : EntityRec) :
    (paddleEntity speed inputs dt e).paddle = e.paddle := by
  cases hp : e.paddle <;> cases ht : e.transform <;> simp [paddleEntity, hp, ht]

theorem moveEntity_ball (dt : ℚ) (e : EntityRec) :
    (moveEntity dt e).ball = e.ball := by
  cases hb : e.ball <;> cases ht : e.transform <;> simp [moveEntity, hb, ht]

theorem moveEntity_paddle (dt : ℚ) (e : EntityRec) :
    (moveEntity dt e).paddle = e.paddle := by
  cases hb : e.ball <;> cases ht : e.transform <;> simp [moveEntity, hb, ht]

theorem bounceEntity_no_ball (ps : List (Paddle × Transform)) (e : EntityRec)
    (h : e.ball = none) : bounceEntity ps e = some e := by
  cases ht : e.transform <;> simp [bounceEntity, h, ht]

/-! ### Lemmas about `Pong.update` and tick sequences -/

theorem update_timer_none (p : Pong) (w : World) (dt : ℚ)
    (h : p.ball_spawn_timer = none) :
    Pong.update p w dt = (p, w, SimpleTrans.none) := by
  unfold Pong.update
  rw [h]

theorem update_spawns (p : Pong) (w : World) (dt t : ℚ)
    (h : p.ball_spawn_timer = some t) (hle : t - dt ≤ 0) :
    Pong.update p w dt =
      ({ p with ball_spawn_timer := none }, initialise_ball w, SimpleTrans.none) := by
  unfold Pong.update
  rw [h]
  simp [hle]

theorem update_counts (p : Pong) (w : World) (dt t : ℚ)
    (h : p.ball_spawn_timer = some t) (hpos : 0 < t - dt) :
    Pong.update p w dt =
      ({ p with ball_spawn_timer := some (t - dt) }, w, SimpleTrans.none) := by
  unfold Pong.update
  rw [h]
  simp [not_le.mpr hpos]

theorem applySteps_nil (s : Pong × World) : applySteps s [] = s := rfl

theorem applySteps_cons (s : Pong × World) (st : Step) (steps : List Step) :
    applySteps s (st :: steps) = applySteps (applyStep s st) steps := rfl

theorem runTicks_nil (s : Pong × World) : runTicks s [] = s := rfl

theorem runTicks_cons (s : Pong × World) (d : ℚ) (dts : List ℚ) :
    runTicks s (d :: dts) = runTicks (applyStep s (Step.tick d)) dts := rfl

theorem runTicks_timer_none (p : Pong) (w : World) (dts : List ℚ)
    (h : p.ball_spawn_timer = none) :
    runTicks (p, w) dts = (p, w) := by
  induction dts with
  | nil => rfl
  | cons d dts ih =>
      rw [runTicks_cons]
      have : applyStep (p, w) (Step.tick d) = (p, w) := by
        simp [applyStep, update_timer_none p w d h]
      rw [this, ih]

/-- Record-update collapse: replacing the timer twice is the same as
replacing it once. -/
theorem pong_set_timer_twice (p : Pong) (a b : Option ℚ) :
    ({ { p with ball_spawn_timer := a } with ball_spawn_timer := b } : Pong) =
      { p with ball_spawn_timer := b } := rfl

theorem pong_set_timer_self (p : Pong) (t : ℚ)
    (h : p.ball_spawn_timer = some t) :
    ({ p with ball_spawn_timer := some t } : Pong) = p := by
  cases p
  simp_all

/-! ### Preservation lemmas for the per-tick systems -/

theorem filterMap_map_congr {α : Type} (g : EntityRec → Option α)
    (f : EntityRec → EntityRec) (hf : ∀ e, g (f e) = g e) (w : World) :
    (w.map f).filterMap g = w.filterMap g := by
  induction w with
  | nil => rfl
  | cons e w ih => rw [List.map_cons, List.filterMap_cons, List.filterMap_cons, hf e, ih]

theorem filterMap_bind_congr {α : Type} (g : EntityRec → Option α)
    (k : EntityRec → Option EntityRec) (w : World)
    (hk : ∀ e ∈ w, (k e).bind g = g e) :
    (w.filterMap k).filterMap g = w.filterMap g := by
  induction w with
  | nil => rfl
  | cons e w ih =>
      have he : (k e).bind g = g e := hk e (List.mem_cons_self e w)
      have ihw := ih fun x hx => hk x (List.mem_cons_of_mem e hx)
      rw [List.filterMap_cons]
      cases hke : k e with
      | none =>
          rw [List.filterMap_cons, ihw]
          rw [hke] at he
          simp only [Option.none_bind] at he
          rw [← he]
      | some e' =>
          rw [hke] at he
          simp only [Option.some_bind] at he
          rw [List.filterMap_cons, List.filterMap_cons, he, ihw]

theorem ballsOf_append (v w : World) : ballsOf (v ++ w) = ballsOf v ++ ballsOf w :=
  List.filterMap_append v w _

theorem paddleSig_append (v w : World) :
    paddleSig (v ++ w) = paddleSig v ++ paddleSig w :=
  List.filterMap_append v w _

theorem sigEntry_paddleEntity (speed : ℚ) (inputs : Side → ℚ) (dt : ℚ) (e : EntityRec) :
    sigEntry (paddleEntity speed inputs dt e) = sigEntry e := by
  cases hp : e.paddle <;> cases ht : e.transform <;> simp [paddleEntity, sigEntry, hp, ht]

theorem sigEntry_moveEntity (dt : ℚ) (e : EntityRec) (hwf : e.ball.isSome → e.paddle = none) :
    sigEntry (moveEntity dt e) = sigEntry e := by
  cases hb : e.ball with
  | none => cases ht : e.transform <;> simp [moveEntity, hb, ht]
  | some b =>
      have hp : e.paddle = none := hwf (by simp [hb])
      cases ht : e.transform <;> simp [moveEntity, sigEntry, hb, ht, hp]

theorem bounceEntity_some (ps : List (Paddle × Transform)) (e e' : EntityRec)
    (h : bounceEntity ps e = some e') :
    e'.paddle = e.paddle ∧ e'.ball.isSome = e.ball.isSome := by
  cases hb : e.ball with
  | none =>
      rw [bounceEntity_no_ball ps e hb] at h
      cases Option.some_inj.mp h
      exact ⟨rfl, by rw [hb]⟩
  | some b =>
      cases ht : e.transform with
      | none =>
          have he : bounceEntity ps e = some e := by simp only [bounceEntity, hb, ht]
          rw [he] at h
          cases Option.some_inj.mp h
          exact ⟨rfl, by rw [hb]⟩
      | some t =>
          simp only [bounceEntity, hb, ht] at h
          split at h <;> split at h
          all_goals try exact Option.noConfusion h
          all_goals cases Option.some_inj.mp h
          all_goals exact ⟨rfl, by simp⟩

theorem bounceEntity_paddle (ps : List (Paddle × Transform)) (e e' : EntityRec)
    (h : bounceEntity ps e = some e') : e'.paddle = e.paddle :=
  (bounceEntity_some ps e e' h).1

theorem bounceEntity_ball_isSome (ps : List (Paddle × Transform)) (e e' : EntityRec)
    (h : bounceEntity ps e = some e') : e'.ball.isSome = e.ball.isSome :=
  (bounceEntity_some ps e e' h).2

theorem ballsOf_paddle_system (speed : ℚ) (inputs : Side → ℚ) (dt : ℚ) (w : World) :
    ballsOf (paddle_system speed inputs dt w) = ballsOf w :=
  filterMap_map_congr _ _ (paddleEntity_ball speed inputs dt) w

theorem ballsOf_move_balls (dt : ℚ) (w : World) :
    ballsOf (move_balls dt w) = ballsOf w :=
  filterMap_map_congr _ _ (moveEntity_ball dt) w

theorem paddleSig_paddle_system (speed : ℚ) (inputs : Side → ℚ) (dt : ℚ) (w : World) :
    paddleSig (paddle_system speed inputs dt w) = paddleSig w :=
  filterMap_map_congr _ _ (sigEntry_paddleEntity speed inputs dt) w

theorem filterMap_map_congr_mem {α : Type} (g : EntityRec → Option α)
    (f : EntityRec → EntityRec) (w : World) (hf : ∀ e ∈ w, g (f e) = g e) :
    (w.map f).filterMap g = w.filterMap g := by
  induction w with
  | nil => rfl
  | cons e w ih =>
      rw [List.map_cons, List.filterMap_cons, List.filterMap_cons,
        hf e (List.mem_cons_self e w), ih fun x hx => hf x (List.mem_cons_of_mem e hx)]

theorem paddleSig_move_balls (dt : ℚ) (w : World) (hwf : wfWorld w) :
    paddleSig (move_balls dt w) = paddleSig w :=
  filterMap_map_congr_mem _ _ w fun e he => sigEntry_moveEntity dt e (hwf e he)

theorem paddleSig_bounce_system (w : World) (hwf : wfWorld w) :
    paddleSig (bounce_system w) = paddleSig w := by
  refine filterMap_bind_congr _ _ w fun e he => ?_
  cases hb : e.ball with
  | none => rw [bounceEntity_no_ball _ e hb, Option.some_bind]
  | some b =>
      have hp : e.paddle = none := hwf e he (by simp [hb])
      cases hke : bounceEntity (paddlesOf w) e with
      | none =>
          rw [Option.none_bind]
          simp [sigEntry, hp]
      | some e' =>
          rw [Option.some_bind]
          have hp' := bounceEntity_paddle _ e e' hke
          simp [sigEntry, hp, hp' ▸ hp]

theorem paddleComp_bounce (w : World) (hwf : wfWorld w) :
    paddlesOf (bounce_system w) = paddlesOf w := by
  refine filterMap_bind_congr _ _ w fun e he => ?_
  cases hb : e.ball with
  | none => rw [bounceEntity_no_ball _ e hb, Option.some_bind]
  | some b =>
      have hp : e.paddle = none := hwf e he (by simp [hb])
      cases hke : bounceEntity (paddlesOf w) e with
      | none =>
          rw [Option.none_bind]
          simp [paddleComp, hp]
      | some e' =>
          rw [Option.some_bind]
          have hp' := bounceEntity_paddle _ e e' hke
          simp [paddleComp, hp, hp' ▸ hp]

theorem ballCount_cons (e : EntityRec) (w : World) :
    ballCount (e :: w) = (if e.ball.isSome then 1 else 0) + ballCount w := by
  cases hb : e.ball <;> simp [ballCount, ballsOf, List.filterMap_cons, hb, Nat.add_comm]

theorem ballCount_bounce_le (ps : List (Paddle × Transform)) (w : World) :
    ballCount (w.filterMap (bounceEntity ps)) ≤ ballCount w := by
  induction w with
  | nil => exact le_rfl
  | cons e w ih =>
      rw [List.filterMap_cons, ballCount_cons]
      cases hke : bounceEntity ps e with
      | none => exact le_trans ih (Nat.le_add_left _ _)
      | some e' =>
          rw [ballCount_cons, bounceEntity_ball_isSome ps e e' hke]
          exact Nat.add_le_add_left ih _

theorem wf_paddle_system (speed : ℚ) (inputs : Side → ℚ) (dt : ℚ) (w : World)
    (hwf : wfWorld w) : wfWorld (paddle_system speed inputs dt w) := by
  intro e' he'
  rcases List.mem_map.mp he' with ⟨e, he, rfl⟩
  rw [paddleEntity_ball, paddleEntity_paddle]
  exact hwf e he

theorem wf_move_balls (dt : ℚ) (w : World) (hwf : wfWorld w) :
    wfWorld (move_balls dt w) := by
  intro e' he'
  rcases List.mem_map.mp he' with ⟨e, he, rfl⟩
  rw [moveEntity_ball, moveEntity_paddle]
  exact hwf e he

theorem wf_bounce_system (w : World) (hwf : wfWorld w) :
    wfWorld (bounce_system w) := by
  intro e' he'
  rcases List.mem_filterMap.mp he' with ⟨e, he, hke⟩
  intro hball
  rw [bounceEntity_paddle _ e e' hke]
  rw [bounceEntity_ball_isSome _ e e' hke] at hball
  exact hwf e he hball

theorem wf_append (v w : World) (hv : wfWorld v) (hw : wfWorld w) :
    wfWorld (v ++ w) := by
  intro e he
  rcases List.mem_append.mp he with h | h
  · exact hv e h
  · exact hw e h

theorem wf_initialise_ball (w : World) (hwf : wfWorld w) :
    wfWorld (initialise_ball w) := by
  refine wf_append _ _ hwf ?_
  intro e he
  simp only [List.mem_singleton] at he
  subst he
  intro
  rfl

theorem paddleSig_initialise_ball (w : World) :
    paddleSig (initialise_ball w) = paddleSig w := by
  rw [initialise_ball, paddleSig_append]
  simp [paddleSig, sigEntry]

theorem ballCount_initialise_ball (w : World) :
    ballCount (initialise_ball w) = ballCount w + 1 := by
  rw [ballCount, initialise_ball, ballsOf_append]
  simp [ballCount, ballsOf]

theorem ballCount_paddle_system (speed : ℚ) (inputs : Side → ℚ) (dt : ℚ) (w : World) :
    ballCount (paddle_system speed inputs dt w) = ballCount w := by
  rw [ballCount, ballsOf_paddle_system, ballCount]

theorem ballCount_move_balls (dt : ℚ) (w : World) :
    ballCount (move_balls dt w) = ballCount w := by
  rw [ballCount, ballsOf_move_balls, ballCount]

theorem ballCount_bounce_system_le (w : World) :
    ballCount (bounce_system w) ≤ ballCount w :=
  ballCount_bounce_le (paddlesOf w) w

/-- Every step of a session (an `update` tick or a system invocation)
preserves the session invariant. -/
theorem inv_applyStep (s : Pong × World) (st : Step) (h : Inv s) : Inv (applyStep s st) := by
  obtain ⟨hwf, hsig, hcount⟩ := h
  cases st with
  | tick dt =>
      cases hp : s.1.ball_spawn_timer with
      | none =>
          have hid : applyStep s (Step.tick dt) = (s.1, s.2) := by
            simp [applyStep, update_timer_none s.1 s.2 dt hp]
          rw [hid]
          exact ⟨hwf, hsig, hcount⟩
      | some t =>
          have hzero : ballCount s.2 = 0 := by
            rcases hcount with ⟨_, h0⟩ | ⟨hnone, _⟩
            · exact h0
            · rw [hp] at hnone
              exact Option.noConfusion hnone
          by_cases hc : t - dt ≤ 0
          · have hstep : applyStep s (Step.tick dt) =
                ({ s.1 with ball_spawn_timer := none }, initialise_ball s.2) := by
              simp [applyStep, update_spawns s.1 s.2 dt t hp hc]
            rw [hstep]
            refine ⟨wf_initialise_ball _ hwf, ?_, Or.inr ⟨rfl, ?_⟩⟩
            · rw [paddleSig_initialise_ball]
              exact hsig
            · rw [ballCount_initialise_ball, hzero]
          · push_neg at hc
            have hstep : applyStep s (Step.tick dt) =
                ({ s.1 with ball_spawn_timer := some (t - dt) }, s.2) := by
              simp [applyStep, update_counts s.1 s.2 dt t hp hc]
            rw [hstep]
            exact ⟨hwf, hsig, Or.inl ⟨rfl, hzero⟩⟩
  | sys op =>
      cases op with
      | paddles speed inputs dt =>
          refine ⟨wf_paddle_system speed inputs dt s.2 hwf, ?_, ?_⟩
          · rw [show (applyStep s (Step.sys (SysOp.paddles speed inputs dt))).2 =
                paddle_system speed inputs dt s.2 from rfl, paddleSig_paddle_system]
            exact hsig
          · rw [show (applyStep s (Step.sys (SysOp.paddles speed inputs dt))).2 =
                paddle_system speed inputs dt s.2 from rfl, ballCount_paddle_system]
            exact hcount
      | move dt =>
          refine ⟨wf_move_balls dt s.2 hwf, ?_, ?_⟩
          · rw [show (applyStep s (Step.sys (SysOp.move dt))).2 = move_balls dt s.2 from rfl,
              paddleSig_move_balls dt s.2 hwf]
            exact hsig
          · rw [show (applyStep s (Step.sys (SysOp.move dt))).2 = move_balls dt s.2 from rfl,
              ballCount_move_balls]
            exact hcount
      | bounce =>
          refine ⟨wf_bounce_system s.2 hwf, ?_, ?_⟩
          · rw [show (applyStep s (Step.sys SysOp.bounce)).2 = bounce_system s.2 from rfl,
              paddleSig_bounce_system s.2 hwf]
            exact hsig
          · rw [show (applyStep s (Step.sys SysOp.bounce)).2 = bounce_system s.2 from rfl]
            rcases hcount with ⟨hsome, h0⟩ | ⟨hnone, h1⟩
            · refine Or.inl ⟨hsome, Nat.le_zero.mp ?_⟩
              rw [← h0]
              exact ballCount_bounce_system_le s.2
            · exact Or.inr ⟨hnone, le_trans (ballCount_bounce_system_le s.2) h1⟩

/-- The session invariant is preserved by any sequence of steps. -/
theorem inv_applySteps (steps : List Step) :
    ∀ s : Pong × World, Inv s → Inv (applySteps s steps) := by
  induction steps with
  | nil => exact fun s h => h
  | cons st steps ih => exact fun s h => ih _ (inv_applyStep s st h)

/-- The state right after `on_start` satisfies the session invariant. -/
theorem inv_sessionStart (sw sh : ℚ) : Inv (sessionStart sw sh) := by
  refine ⟨?_, rfl, Or.inl ⟨rfl, rfl⟩⟩
  intro e he
  simp only [sessionStart, Pong.on_start, initialise_paddles, List.nil_append,
    List.append_assoc, List.cons_append, List.mem_cons, List.not_mem_nil,
    List.mem_singleton, or_false] at he
  rcases he with rfl | rfl | rfl | rfl <;> simp

/-! ### Velocity lemmas for the bounce system -/

theorem paddleReflect_fields (t : Transform) (r : ℚ) (b : Ball) (ppt : Paddle × Transform) :
    |(paddleReflect t r b ppt).velocity.1| = |b.velocity.1| ∧
      (paddleReflect t r b ppt).velocity.2 = b.velocity.2 ∧
      (paddleReflect t r b ppt).radius = b.radius := by
  unfold paddleReflect
  split
  · exact ⟨abs_neg _, rfl, rfl⟩
  · exact ⟨rfl, rfl, rfl⟩

theorem foldReflect_fields (t : Transform) (r : ℚ) (ps : List (Paddle × Transform)) :
    ∀ b : Ball, |(ps.foldl (paddleReflect t r) b).velocity.1| = |b.velocity.1| ∧
      (ps.foldl (paddleReflect t r) b).velocity.2 = b.velocity.2 ∧
      (ps.foldl (paddleReflect t r) b).radius = b.radius := by
  induction ps with
  | nil => exact fun b => ⟨rfl, rfl, rfl⟩
  | cons ppt ps ih =>
      intro b
      rw [List.foldl_cons]
      obtain ⟨h1, h2, h3⟩ := ih (paddleReflect t r b ppt)
      obtain ⟨g1, g2, g3⟩ := paddleReflect_fields t r b ppt
      exact ⟨h1.trans g1, h2.trans g2, h3.trans g3⟩

/-- One paddle-reflection step acts on the ball, uniformly in the ball, as
the identity, as `velocity.x := |velocity.x|` (a left paddle the ball
overlaps) or as `velocity.x := -|velocity.x|` (a right paddle the ball
overlaps). -/
theorem paddleReflect_cases (t : Transform) (r : ℚ) (ppt : Paddle × Transform) :
    (∀ b : Ball, paddleReflect t r b ppt = b) ∨
      (∀ b : Ball, paddleReflect t r b ppt =
        { b with velocity := (|b.velocity.1|, b.velocity.2) }) ∨
      (∀ b : Ball, paddleReflect t r b ppt =
        { b with velocity := (-|b.velocity.1|, b.velocity.2) }) := by
  by_cases hov : overlaps t r ppt.1 ppt.2
  · cases hside : ppt.1.side with
    | Left =>
        refine Or.inr (Or.inl fun b => ?_)
        unfold paddleReflect
        by_cases hv : b.velocity.1 < 0
        · rw [if_pos ⟨hov, Or.inl ⟨hside, hv⟩⟩, abs_of_neg hv]
        · rw [if_neg fun ⟨_, hor⟩ => hor.elim (fun ⟨_, hvv⟩ => hv hvv)
              (fun ⟨hR, _⟩ => Side.noConfusion (hside ▸ hR)),
            abs_of_nonneg (not_lt.mp hv)]
    | Right =>
        refine Or.inr (Or.inr fun b => ?_)
        unfold paddleReflect
        by_cases hv : 0 < b.velocity.1
        · rw [if_pos ⟨hov, Or.inr ⟨hside, hv⟩⟩, abs_of_pos hv]
        · rw [if_neg fun ⟨_, hor⟩ => hor.elim
              (fun ⟨hL, _⟩ => Side.noConfusion (hside ▸ hL)) (fun ⟨_, hvv⟩ => hv hvv),
            abs_of_nonpos (not_lt.mp hv), neg_neg]
  · exact Or.inl fun b => if_neg fun ⟨ho, _⟩ => hov ho

/-- The whole paddle-reflection fold acts on the ball, uniformly in the
ball, as the identity, as `velocity.x := |velocity.x|` or as
`velocity.x := -|velocity.x|`. -/
theorem foldReflect_cases (t : Transform) (r : ℚ) (ps : List (Paddle × Transform)) :
    (∀ b : Ball, ps.foldl (paddleReflect t r) b = b) ∨
      (∀ b : Ball, ps.foldl (paddleReflect t r) b =
        { b with velocity := (|b.velocity.1|, b.velocity.2) }) ∨
      (∀ b : Ball, ps.foldl (paddleReflect t r) b =
        { b with velocity := (-|b.velocity.1|, b.velocity.2) }) := by
  induction ps with
  | nil => exact Or.inl fun b => rfl
  | cons ppt ps ih =>
      rcases paddleReflect_cases t r ppt with hp | hp | hp
      · rcases ih with hi | hi | hi
        · exact Or.inl fun b => by rw [List.foldl_cons, hp b, hi b]
        · exact Or.inr (Or.inl fun b => by rw [List.foldl_cons, hp b, hi b])
        · exact Or.inr (Or.inr fun b => by rw [List.foldl_cons, hp b, hi b])
      · rcases ih with hi | hi | hi
        · exact Or.inr (Or.inl fun b => by rw [List.foldl_cons, hp b, hi _])
        · refine Or.inr (Or.inl fun b => ?_)
          rw [List.foldl_cons, hp b, hi _]
          simp [abs_abs]
        · refine Or.inr (Or.inr fun b => ?_)
          rw [List.foldl_cons, hp b, hi _]
          simp [abs_abs]
      · rcases ih with hi | hi | hi
        · exact Or.inr (Or.inr fun b => by rw [List.foldl_cons, hp b, hi _])
        · refine Or.inr (Or.inl fun b => ?_)
          rw [List.foldl_cons, hp b, hi _]
          simp [abs_neg, abs_abs]
        · refine Or.inr (Or.inr fun b => ?_)
          rw [List.foldl_cons, hp b, hi _]
          simp [abs_neg, abs_abs]

/-- The paddle-reflection fold is idempotent on the ball: the directional
guard makes a second pass over the same paddles a no-op. -/
theorem foldReflect_idem (t : Transform) (r : ℚ) (ps : List (Paddle × Transform)) (b : Ball) :
    ps.foldl (paddleReflect t r) (ps.foldl (paddleReflect t r) b) =
      ps.foldl (paddleReflect t r) b := by
  rcases foldReflect_cases t r ps with h | h | h
  · rw [h, h]
  · rw [h b, h _]
    simp [abs_abs]
  · rw [h b, h _]
    simp [abs_neg, abs_abs]

/-- One system invocation maps every surviving ball back to a ball of the
input store with the same per-axis velocity magnitude. -/
theorem sysOp_velocity (op : SysOp) (w : World) (e' : EntityRec) (b' : Ball)
    (he : e' ∈ applySysOp w op) (hb : e'.ball = some b') :
    ∃ e ∈ w, ∃ b : Ball, e.ball = some b ∧
      |b'.velocity.1| = |b.velocity.1| ∧ |b'.velocity.2| = |b.velocity.2| := by
  cases op with
  | paddles speed inputs dt =>
      rcases List.mem_map.mp he with ⟨e, hew, rfl⟩
      refine ⟨e, hew, b', ?_, rfl, rfl⟩
      rw [← paddleEntity_ball speed inputs dt e]
      exact hb
  | move dt =>
      rcases List.mem_map.mp he with ⟨e, hew, rfl⟩
      refine ⟨e, hew, b', ?_, rfl, rfl⟩
      rw [← moveEntity_ball dt e]
      exact hb
  | bounce =>
      rcases List.mem_filterMap.mp he with ⟨e, hew, hke⟩
      cases hbe : e.ball with
      | none =>
          rw [bounceEntity_no_ball _ e hbe] at hke
          have hEq := Option.some_inj.mp hke
          rw [← hEq, hbe] at hb
          exact Option.noConfusion hb
      | some b =>
          cases hte : e.transform with
          | none =>
              have hee : bounceEntity (paddlesOf w) e = some e := by
                simp only [bounceEntity, hbe, hte]
              rw [hee] at hke
              have hEq := Option.some_inj.mp hke
              exact ⟨e', hEq ▸ hew, b', hb, rfl, rfl⟩
          | some t =>
              simp only [bounceEntity, hbe, hte] at hke
              split at hke <;> split at hke
              all_goals try exact Option.noConfusion hke
              all_goals cases Option.some_inj.mp hke
              · cases Option.some_inj.mp hb
                obtain ⟨h1, h2, _⟩ := foldReflect_fields
                  { t with y := clamp t.y b.radius (ARENA_HEIGHT - b.radius) } b.radius
                  (paddlesOf w) { b with velocity := (b.velocity.1, -b.velocity.2) }
                refine ⟨e, hew, b, hbe, h1, ?_⟩
                rw [h2]
                exact abs_neg _
              · cases Option.some_inj.mp hb
                obtain ⟨h1, h2, _⟩ := foldReflect_fields t b.radius (paddlesOf w) b
                refine ⟨e, hew, b, hbe, h1, ?_⟩
                rw [h2]

/-- Across any sequence of system invocations, every surviving ball traces
back to a ball of the initial store with the same per-axis velocity
magnitude. -/
theorem sysOps_velocity (ops : List SysOp) :
    ∀ (w : World) (e' : EntityRec) (b' : Ball),
      e' ∈ applySysOps w ops → e'.ball = some b' →
      ∃ e ∈ w, ∃ b : Ball, e.ball = some b ∧
        |b'.velocity.1| = |b.velocity.1| ∧ |b'.velocity.2| = |b.velocity.2| := by
  induction ops with
  | nil => exact fun w e' b' he hb => ⟨e', he, b', hb, rfl, rfl⟩
  | cons op ops ih =>
      intro w e' b' he hb
      rcases ih (applySysOp w op) e' b' he hb with ⟨em, hem, bm, hbm, h1, h2⟩
      rcases sysOp_velocity op w em bm hem hbm with ⟨e, hew, b, hbe, g1, g2⟩
      exact ⟨e, hew, b, hbe, h1.trans g1, h2.trans g2⟩

theorem strictlyInsideWalls_elim (e : EntityRec) (b : Ball) (t : Transform)
    (hbe : e.ball = some b) (hte : e.transform = some t)
    (hin : strictlyInsideWalls e) :
    b.radius < t.y ∧ t.y + b.radius < ARENA_HEIGHT := by
  unfold strictlyInsideWalls at hin
  simp only [hbe, hte] at hin
  exact hin

/-- For an entity strictly inside the top/bottom walls, running the bounce
step twice is the same as running it once. -/
theorem bounceEntity_idem (ps : List (Paddle × Transform)) (e : EntityRec)
    (hin : strictlyInsideWalls e) :
    (bounceEntity ps e).bind (bounceEntity ps) = bounceEntity ps e := by
  obtain ⟨eb, ep, et, es⟩ := e
  cases eb with
  | none =>
      rw [bounceEntity_no_ball ps _ rfl, Option.some_bind, bounceEntity_no_ball ps _ rfl]
  | some b =>
      cases et with
      | none =>
          have hee : bounceEntity ps ⟨some b, ep, none, es⟩ = some ⟨some b, ep, none, es⟩ := rfl
          rw [hee, Option.some_bind, hee]
      | some t =>
          obtain ⟨hlo, hhi⟩ := strictlyInsideWalls_elim _ b t rfl rfl hin
          have hwall : ¬(t.y - b.radius ≤ 0 ∨ ARENA_HEIGHT ≤ t.y + b.radius) := by
            push_neg
            constructor <;> linarith
          have hred : bounceEntity ps ⟨some b, ep, some t, es⟩ =
              if t.x + (List.foldl (paddleReflect t b.radius) b ps).radius < 0 ∨
                  ARENA_WIDTH < t.x - (List.foldl (paddleReflect t b.radius) b ps).radius then
                none
              else some ⟨some (List.foldl (paddleReflect t b.radius) b ps), ep, some t, es⟩ := by
            simp only [bounceEntity, if_neg hwall]
          rw [hred]
          by_cases hoob : t.x + (List.foldl (paddleReflect t b.radius) b ps).radius < 0 ∨
              ARENA_WIDTH < t.x - (List.foldl (paddleReflect t b.radius) b ps).radius
          · rw [if_pos hoob, Option.none_bind]
          · rw [if_neg hoob, Option.some_bind]
            have hrad : (List.foldl (paddleReflect t b.radius) b ps).radius = b.radius :=
              (foldReflect_fields t b.radius ps b).2.2
            have hred2 : bounceEntity ps
                ⟨some (List.foldl (paddleReflect t b.radius) b ps), ep, some t, es⟩ =
                if t.x + (List.foldl (paddleReflect t b.radius)
                      (List.foldl (paddleReflect t b.radius) b ps) ps).radius < 0 ∨
                    ARENA_WIDTH < t.x - (List.foldl (paddleReflect t b.radius)
                      (List.foldl (paddleReflect t b.radius) b ps) ps).radius then
                  none
                else some ⟨some (List.foldl (paddleReflect t b.radius)
                    (List.foldl (paddleReflect t b.radius) b ps) ps), ep, some t, es⟩ := by
              simp only [bounceEntity, hrad, if_neg hwall]
            rw [hred2, foldReflect_idem, if_neg hoob]

/-- Under the well-formedness invariant, with every ball strictly inside the
top/bottom walls, the bounce system is idempotent on the whole store. -/
theorem bounce_system_idem (w : World) (hwf : wfWorld w)
    (hin : ∀ e ∈ w, strictlyInsideWalls e) :
    bounce_system (bounce_system w) = bounce_system w := by
  have hps : paddlesOf (bounce_system w) = paddlesOf w := paddleComp_bounce w hwf
  show (bounce_system w).filterMap (bounceEntity (paddlesOf (bounce_system w))) =
    bounce_system w
  rw [hps]
  exact filterMap_bind_congr (bounceEntity (paddlesOf w)) (bounceEntity (paddlesOf w)) w
    fun e he => bounceEntity_idem (paddlesOf w) e (hin e he)

/-- The master characterisation of a sequence of `update` ticks that starts
with an armed timer `t > 0`: as long as the accumulated `dt` stays below
`t` the timer just counts down and the store is untouched; once the
accumulated `dt` reaches `t` the ball is spawned (exactly once) and the timer
is gone. -/
theorem runTicks_spawn (dts : List ℚ) (h : ∀ d ∈ dts, 0 ≤ d) :
    ∀ (t : ℚ), 0 < t → ∀ (p : Pong) (w : World), p.ball_spawn_timer = some t →
      runTicks (p, w) dts =
        if dts.sum < t then ({ p with ball_spawn_timer := some (t - dts.sum) }, w)
        else ({ p with ball_spawn_timer := none }, initialise_ball w) := by
  induction dts with
  | nil =>
      intro t ht p w hp
      rw [runTicks_nil, List.sum_nil, if_pos ht, sub_zero, pong_set_timer_self p t hp]
  | cons d dts ih =>
      intro t ht p w hp
      have hd : 0 ≤ d := h d (List.mem_cons_self d dts)
      have hrest : ∀ x ∈ dts, 0 ≤ x := fun x hx => h x (List.mem_cons_of_mem d hx)
      have hsum : 0 ≤ dts.sum := List.sum_nonneg hrest
      rw [runTicks_cons]
      by_cases hc : t - d ≤ 0
      · have hstep : applyStep (p, w) (Step.tick d) =
            ({ p with ball_spawn_timer := none }, initialise_ball w) := by
          simp [applyStep, update_spawns p w d t hp hc]
        rw [hstep, runTicks_timer_none _ _ _ rfl, List.sum_cons,
          if_neg (by push_neg; linarith)]
      · push_neg at hc
        have hstep : applyStep (p, w) (Step.tick d) =
            ({ p with ball_spawn_timer := some (t - d) }, w) := by
          simp [applyStep, update_counts p w d t hp hc]
        rw [hstep, ih hrest (t - d) hc _ w rfl, List.sum_cons]
        by_cases hlt : dts.sum < t - d
        · rw [if_pos hlt, if_pos (by linarith), pong_set_timer_twice, sub_sub]
        · rw [if_neg hlt, if_neg (by push_neg at hlt ⊢; linarith), pong_set_timer_twice]

/-- Once the spawn timer is gone it stays gone: no step of a session ever
re-arms it. -/
theorem applySteps_timer_none (steps : List Step) :
    ∀ s : Pong × World, s.1.ball_spawn_timer = none →
      (applySteps s steps).1.ball_spawn_timer = none := by
  induction steps with
  | nil => exact fun s h => h
  | cons st steps ih =>
      intro s h
      rw [applySteps_cons]
      apply ih
      cases st with
      | tick dt =>
          have hid : applyStep s (Step.tick dt) = (s.1, s.2) := by
            simp [applyStep, update_timer_none s.1 s.2 dt h]
          rw [hid]
          exact h
      | sys op => exact h

/-- With the spawn timer gone, no step of a session ever increases the
number of balls. -/
theorem applySteps_timer_none_count (steps : List Step) :
    ∀ s : Pong × World, s.1.ball_spawn_timer = none →
      ballCount (applySteps s steps).2 ≤ ballCount s.2 := by
  induction steps with
  | nil => exact fun s h => le_rfl
  | cons st steps ih =>
      intro s h
      rw [applySteps_cons]
      cases st with
      | tick dt =>
          have hid : applyStep s (Step.tick dt) = (s.1, s.2) := by
            simp [applyStep, update_timer_none s.1 s.2 dt h]
          rw [hid]
          exact ih (s.1, s.2) h
      | sys op =>
          refine le_trans (ih (s.1, applySysOp s.2 op) h) ?_
          show ballCount (applySysOp s.2 op) ≤ ballCount s.2
          cases op with
          | paddles speed inputs dt =>
              rw [show applySysOp s.2 (SysOp.paddles speed inputs dt) =
                paddle_system speed inputs dt s.2 from rfl, ballCount_paddle_system]
          | move dt =>
              rw [show applySysOp s.2 (SysOp.move dt) = move_balls dt s.2 from rfl,
                ballCount_move_balls]
          | bounce => exact ballCount_bounce_system_le s.2

/-! ### The claims -/

/-- Claim C3: in every state reachable from session start by any sequence of
steps (update ticks and system invocations), at most one Ball entity exists
in the store; since the post-update state of any reachable state is itself
reachable, the per-tick update in particular never creates a Ball while one
already exists. -/
theorem at_most_one_ball (sw sh : ℚ) (steps : List Step) :
    ballCount (applySteps (sessionStart sw sh) steps).2 ≤ 1 := by
  have hinv := inv_applySteps steps (sessionStart sw sh) (inv_sessionStart sw sh)
  rcases hinv.2.2 with ⟨_, h0⟩ | ⟨_, h1⟩
  · rw [h0]
    exact Nat.zero_le 1
  · exact h1

/-- Claim C9: once the spawn timer is `None`, every subsequent call to
`update` returns the state and the world unchanged (with `Trans::None`), and
so does any sequence of further update ticks: no entity is ever created
again. -/
theorem update_noop_after_spawn (p : Pong) (w : World) (dt : ℚ) (dts : List ℚ)
    (h : p.ball_spawn_timer = none) :
    Pong.update p w dt = (p, w, SimpleTrans.none) ∧ runTicks (p, w) dts = (p, w) :=
  ⟨update_timer_none p w dt h, runTicks_timer_none p w dts h⟩

/-- Claim C9, checked on a concrete input. -/
theorem update_noop_after_spawn_check :
    Pong.update { ball_spawn_timer := none } [] 1 =
      ({ ball_spawn_timer := none }, [], SimpleTrans.none) ∧
    runTicks (({ ball_spawn_timer := none } : Pong), ([] : World)) [1, 2] =
      ({ ball_spawn_timer := none }, []) :=
  update_noop_after_spawn { ball_spawn_timer := none } [] 1 [1, 2] rfl

/-- Claim C10: the per-tick `update` always returns `Trans::None`, whatever
the spawn timer and the world are. -/
theorem update_always_trans_none (p : Pong) (w : World) (dt : ℚ) :
    (Pong.update p w dt).2.2 = SimpleTrans.none := by
  cases hp : p.ball_spawn_timer with
  | none => rw [update_timer_none p w dt hp]
  | some t =>
      by_cases hc : t - dt ≤ 0
      · rw [update_spawns p w dt t hp hc]
      · push_neg at hc
        rw [update_counts p w dt t hp hc]

/-- Claim C4: the spawn timer is `Some` only while no ball exists; it is set
to 3.0 at session start, decremented by `dt` and put back while it stays
positive, consumed (set to `None`) on the tick that spawns the ball, and it
stays `None` from then on. -/
theorem spawn_timer_lifecycle :
    (∀ (p : Pong) (w : World) (sw sh : ℚ),
        (Pong.on_start p w sw sh).1.ball_spawn_timer = some 3) ∧
    (∀ (p : Pong) (w : World) (dt t : ℚ), p.ball_spawn_timer = some t → 0 < t - dt →
        Pong.update p w dt =
          ({ p with ball_spawn_timer := some (t - dt) }, w, SimpleTrans.none)) ∧
    (∀ (p : Pong) (w : World) (dt t : ℚ), p.ball_spawn_timer = some t → t - dt ≤ 0 →
        Pong.update p w dt =
          ({ p with ball_spawn_timer := none }, initialise_ball w, SimpleTrans.none)) ∧
    (∀ (sw sh : ℚ) (steps : List Step),
        (applySteps (sessionStart sw sh) steps).1.ball_spawn_timer.isSome →
        ballCount (applySteps (sessionStart sw sh) steps).2 = 0) ∧
    (∀ (s : Pong × World) (steps : List Step), s.1.ball_spawn_timer = none →
        (applySteps s steps).1.ball_spawn_timer = none) := by
  refine ⟨fun p w sw sh => rfl, fun p w dt t h hp => update_counts p w dt t h hp,
    fun p w dt t h hl => update_spawns p w dt t h hl, ?_,
    fun s steps h => applySteps_timer_none steps s h⟩
  intro sw sh steps hsome
  have hinv := inv_applySteps steps (sessionStart sw sh) (inv_sessionStart sw sh)
  rcases hinv.2.2 with ⟨_, h0⟩ | ⟨hnone, _⟩
  · exact h0
  · rw [hnone] at hsome
    simp at hsome

/-- Claim C4, checked on a concrete input: one tick of 1 second decrements
the armed timer from 3 to 2 and keeps the store unchanged. -/
theorem spawn_timer_lifecycle_check :
    Pong.update { ball_spawn_timer := some 3, sprite_sheet_handle := some () } [] 1 =
      ({ ball_spawn_timer := some 2, sprite_sheet_handle := some () }, [], SimpleTrans.none) := by
  have h := spawn_timer_lifecycle.2.1
    { ball_spawn_timer := some 3, sprite_sheet_handle := some () } [] 1 3 rfl (by norm_num)
  rw [h]
  norm_num

/-- Claim C1: from session start (timer armed at 3.0, no ball), over any
sequence of non-negative tick durations the timer is decremented tick by
tick; while the accumulated `dt` stays below 3.0 no ball exists and the
timer reads `3 - elapsed`; as soon as the accumulated `dt` reaches 3.0
(including exactly 3.0) the ball exists — created on that first tick and on
no earlier one, since this holds for every prefix of the sequence — with
position (50, 50), velocity (45, 20) and radius 2. -/
theorem spawn_after_three_seconds (sw sh : ℚ) (dts : List ℚ) (h : ∀ d ∈ dts, 0 ≤ d) :
    (dts.sum < 3 →
      (runTicks (sessionStart sw sh) dts).1.ball_spawn_timer = some (3 - dts.sum) ∧
      ballEntities (runTicks (sessionStart sw sh) dts).2 = []) ∧
    (3 ≤ dts.sum →
      (runTicks (sessionStart sw sh) dts).1.ball_spawn_timer = none ∧
      ballEntities (runTicks (sessionStart sw sh) dts).2 =
        [{ ball := some { velocity := (45, 20), radius := 2 },
           transform := some ⟨50, 50, 0⟩, sprite := true }]) := by
  have hrun := runTicks_spawn dts h 3 (by norm_num)
    (sessionStart sw sh).1 (sessionStart sw sh).2 rfl
  rw [Prod.mk.eta] at hrun
  constructor
  · intro hlt
    rw [hrun, if_pos hlt]
    exact ⟨rfl, rfl⟩
  · intro hge
    rw [hrun, if_neg (not_lt.mpr hge)]
    refine ⟨rfl, ?_⟩
    show ballEntities (initialise_ball (sessionStart sw sh).2) = _
    rw [initialise_ball, ballEntities, List.filter_append]
    norm_num [sessionStart, Pong.on_start, initialise_paddles, List.filter,
      ARENA_WIDTH, ARENA_HEIGHT, BALL_VELOCITY_X, BALL_VELOCITY_Y, BALL_RADIUS]

/-- Claim C1, checked on a concrete input: two ticks of 2 seconds. -/
theorem spawn_after_three_seconds_check :
    (runTicks (sessionStart 800 600) [2, 2]).1.ball_spawn_timer = none ∧
    ballEntities (runTicks (sessionStart 800 600) [2, 2]).2 =
      [{ ball := some { velocity := (45, 20), radius := 2 },
         transform := some ⟨50, 50, 0⟩, sprite := true }] :=
  (spawn_after_three_seconds 800 600 [2, 2] (by decide)).2 (by decide)

/-- Claim C5: session initialisation creates exactly the two paddles, the
left one at x = 2 and the right one at x = 98, both at y = 50, each of width
4 and height 16; and no step of a session ever destroys or reshapes a
paddle, so exactly these two paddles (one per side, same width, height and
horizontal position) exist after any sequence of steps. -/
theorem two_paddles_forever (sw sh : ℚ) (steps : List Step) :
    paddlesOf (sessionStart sw sh).2 =
      [({ side := Side.Left, width := 4, height := 16 }, ⟨2, 50, 0⟩),
       ({ side := Side.Right, width := 4, height := 16 }, ⟨98, 50, 0⟩)] ∧
    paddleSig (applySteps (sessionStart sw sh) steps).2 =
      [(Side.Left, 4, 16, 2), (Side.Right, 4, 16, 98)] := by
  constructor
  · norm_num [sessionStart, Pong.on_start, initialise_paddles, paddlesOf, paddleComp,
      Paddle.new, List.filterMap, PADDLE_WIDTH, PADDLE_HEIGHT, ARENA_WIDTH, ARENA_HEIGHT]
  · have hinv := inv_applySteps steps (sessionStart sw sh) (inv_sessionStart sw sh)
    rw [hinv.2.1]
    norm_num [PADDLE_WIDTH, PADDLE_HEIGHT, ARENA_WIDTH]

/-- Claim C2 is false on the code: a concrete session in which the ball
spawns after 3 s, flies out of the right edge during the next tick and is
destroyed by the bounce system — yet the spawner's timer is not re-armed to
`Counting(3.0)` (it stays `None`), and a further 3 s of ticks spawn no new
ball. -/
theorem no_rearm_counterexample :
    ballCount (applySteps (sessionStart 800 600)
        [Step.tick 3, Step.tick (6 / 5), Step.sys (SysOp.move (6 / 5))]).2 = 1 ∧
    ballCount (applySteps (sessionStart 800 600)
        [Step.tick 3, Step.tick (6 / 5), Step.sys (SysOp.move (6 / 5)),
         Step.sys SysOp.bounce]).2 = 0 ∧
    (applySteps (sessionStart 800 600)
        [Step.tick 3, Step.tick (6 / 5), Step.sys (SysOp.move (6 / 5)),
         Step.sys SysOp.bounce]).1.ball_spawn_timer ≠ some 3 ∧
    ballCount (applySteps (sessionStart 800 600)
        [Step.tick 3, Step.tick (6 / 5), Step.sys (SysOp.move (6 / 5)), Step.sys SysOp.bounce,
         Step.tick 1, Step.tick 1, Step.tick 1]).2 = 0 :=
  ⟨by decide, by decide, by decide, by decide⟩

/-- Claim C2 (amended): when the ball is destroyed the spawner is NOT
re-armed.  The spawn timer, already `None` since the spawn tick, stays
`None` for the rest of the session, and the number of balls never grows
again; only session start arms the timer. -/
theorem timer_never_rearmed (s : Pong × World) (steps : List Step)
    (h : s.1.ball_spawn_timer = none) :
    (applySteps s steps).1.ball_spawn_timer = none ∧
    ballCount (applySteps s steps).2 ≤ ballCount s.2 :=
  ⟨applySteps_timer_none steps s h, applySteps_timer_none_count steps s h⟩

/-- Claim C2 (amended), checked on a concrete input: after the ball from the
counterexample run is destroyed, three more ticks leave the timer `None` and
the store without a ball. -/
theorem timer_never_rearmed_check :
    (applySteps (applySteps (sessionStart 800 600)
        [Step.tick 3, Step.tick (6 / 5), Step.sys (SysOp.move (6 / 5)), Step.sys SysOp.bounce])
        [Step.tick 1, Step.tick 1, Step.tick 1]).1.ball_spawn_timer = none ∧
    ballCount (applySteps (applySteps (sessionStart 800 600)
        [Step.tick 3, Step.tick (6 / 5), Step.sys (SysOp.move (6 / 5)), Step.sys SysOp.bounce])
        [Step.tick 1, Step.tick 1, Step.tick 1]).2 ≤
      ballCount (applySteps (sessionStart 800 600)
        [Step.tick 3, Step.tick (6 / 5), Step.sys (SysOp.move (6 / 5)), Step.sys SysOp.bounce]).2 :=
  timer_never_rearmed (applySteps (sessionStart 800 600)
      [Step.tick 3, Step.tick (6 / 5), Step.sys (SysOp.move (6 / 5)), Step.sys SysOp.bounce])
    [Step.tick 1, Step.tick 1, Step.tick 1] (by decide)

/-- Claim C7: across any sequence of system invocations (paddle moves, ball
moves, bounces), every surviving ball arises from a ball of the initial
store with the same |velocity.x| and |velocity.y|: bounces only flip signs,
never scale magnitudes. -/
theorem ball_speed_invariant (ops : List SysOp) (w : World) (e' : EntityRec) (b' : Ball)
    (he : e' ∈ applySysOps w ops) (hb : e'.ball = some b') :
    ∃ e ∈ w, ∃ b : Ball, e.ball = some b ∧
      |b'.velocity.1| = |b.velocity.1| ∧ |b'.velocity.2| = |b.velocity.2| :=
  sysOps_velocity ops w e' b' he hb

/-- Claim C7, checked on a concrete input: a wall bounce flips the sign of
`velocity.y` and keeps both magnitudes. -/
theorem ball_speed_invariant_check :
    ∃ e ∈ ([{ ball := some { velocity := ((45 : ℚ), -20), radius := 2 },
              transform := some ⟨50, 1, 0⟩ }] : World),
      ∃ b : Ball, e.ball = some b ∧
        |(45 : ℚ)| = |b.velocity.1| ∧ |(20 : ℚ)| = |b.velocity.2| :=
  ball_speed_invariant [SysOp.bounce]
    [{ ball := some { velocity := (45, -20), radius := 2 }, transform := some ⟨50, 1, 0⟩ }]
    { ball := some { velocity := (45, 20), radius := 2 }, transform := some ⟨50, 2, 0⟩ }
    { velocity := (45, 20), radius := 2 } (by decide) (by decide)

/-- Claim C8 as stated is false on the spec's bounce rules: a ball resting
on the bottom wall (y = 1, radius 2) has its `velocity.y` flipped and its
position clamped to y = 2 by one bounce pass, but the clamped position still
satisfies `y - radius <= 0`, so a second pass in the same tick flips
`velocity.y` back: running the system twice does not equal running it
once. -/
theorem bounce_twice_differs :
    ballsOf (bounce_system
        [{ ball := some { velocity := ((45 : ℚ), -20), radius := 2 },
           transform := some ⟨50, 1, 0⟩ }]) =
      [{ velocity := (45, 20), radius := 2 }] ∧
    ballsOf (bounce_system (bounce_system
        [{ ball := some { velocity := ((45 : ℚ), -20), radius := 2 },
           transform := some ⟨50, 1, 0⟩ }])) =
      [{ velocity := (45, -20), radius := 2 }] ∧
    bounce_system (bounce_system
        [{ ball := some { velocity := ((45 : ℚ), -20), radius := 2 },
           transform := some ⟨50, 1, 0⟩ }]) ≠
      bounce_system
        [{ ball := some { velocity := ((45 : ℚ), -20), radius := 2 },
           transform := some ⟨50, 1, 0⟩ }] :=
  ⟨by decide, by decide, by decide⟩

/-- Claim C8 (amended): in a well-formed store (no entity is both ball and
paddle) in which every ball is strictly inside the top/bottom walls — so
that the unguarded wall test cannot re-fire on the clamped position — the
bounce system is idempotent: the one-directional paddle guard prevents any
double reflection of `velocity.x`, and `velocity.y` is untouched. -/
theorem bounce_idempotent_inside_walls (w : World) (hwf : wfWorld w)
    (hin : ∀ e ∈ w, strictlyInsideWalls e) :
    bounce_system (bounce_system w) = bounce_system w :=
  bounce_system_idem w hwf hin

/-- Claim C8 (amended), checked on a concrete input: a ball overlapping the
right paddle, strictly inside the walls. -/
theorem bounce_idempotent_inside_walls_check :
    bounce_system (bounce_system
      [{ paddle := some { side := Side.Left, width := 4, height := 16 },
         transform := some ⟨2, 50, 0⟩ },
       { paddle := some { side := Side.Right, width := 4, height := 16 },
         transform := some ⟨98, 50, 0⟩ },
       { ball := some { velocity := ((45 : ℚ), 20), radius := 2 },
         transform := some ⟨95, 50, 0⟩ }]) =
    bounce_system
      [{ paddle := some { side := Side.Left, width := 4, height := 16 },
         transform := some ⟨2, 50, 0⟩ },
       { paddle := some { side := Side.Right, width := 4, height := 16 },
         transform := some ⟨98, 50, 0⟩ },
       { ball := some { velocity := ((45 : ℚ), 20), radius := 2 },
         transform := some ⟨95, 50, 0⟩ }] :=
  bounce_idempotent_inside_walls
    [{ paddle := some { side := Side.Left, width := 4, height := 16 },
       transform := some ⟨2, 50, 0⟩ },
     { paddle := some { side := Side.Right, width := 4, height := 16 },
       transform := some ⟨98, 50, 0⟩ },
     { ball := some { velocity := ((45 : ℚ), 20), radius := 2 },
       transform := some ⟨95, 50, 0⟩ }] (by decide) (by decide)

/-- Claim C6: the paddle system sets every paddle's vertical position to
`clamp(old_y + input * speed * dt, height/2, ARENA_HEIGHT - height/2)`, so
that for the game's paddles (height 16) the vertical center always lands in
[8, 92], whatever the input scalar and `dt` are. -/
theorem paddle_clamped (speed : ℚ) (inputs : Side → ℚ) (dt : ℚ) (w : World)
    (e' : EntityRec) (he : e' ∈ paddle_system speed inputs dt w)
    (p : Paddle) (t' : Transform) (hp : e'.paddle = some p) (ht : e'.transform = some t') :
    (∃ e ∈ w, ∃ t : Transform, e.paddle = some p ∧ e.transform = some t ∧
        t'.y = clamp (t.y + inputs p.side * speed * dt)
          (p.height / 2) (ARENA_HEIGHT - p.height / 2)) ∧
    (p.height = PADDLE_HEIGHT → 8 ≤ t'.y ∧ t'.y ≤ 92) := by
  rcases List.mem_map.mp he with ⟨e, hew, rfl⟩
  have hep : e.paddle = some p := by
    rw [← paddleEntity_paddle speed inputs dt e]
    exact hp
  cases het : e.transform with
  | none =>
      have hid : paddleEntity speed inputs dt e = e := by
        simp only [paddleEntity, hep, het]
      rw [hid, het] at ht
      exact Option.noConfusion ht
  | some t =>
      have hcalc : paddleEntity speed inputs dt e =
          ⟨e.ball, e.paddle,
            some ⟨t.x, clamp (t.y + inputs p.side * speed * dt)
              (p.height / 2) (ARENA_HEIGHT - p.height / 2), t.z⟩, e.sprite⟩ := by
        simp only [paddleEntity, hep, het]
      rw [hcalc] at ht
      cases Option.some_inj.mp ht
      refine ⟨⟨e, hew, t, hep, het, rfl⟩, fun hh => ?_⟩
      rw [hh]
      have h8 : (PADDLE_HEIGHT : ℚ) / 2 = 8 := by norm_num [PADDLE_HEIGHT]
      have h92 : ARENA_HEIGHT - PADDLE_HEIGHT / 2 = 92 := by
        norm_num [ARENA_HEIGHT, PADDLE_HEIGHT]
      simp only [clamp, h8, h92]
      exact ⟨le_max_left 8 _, max_le (by norm_num) (min_le_right _ _)⟩

/-- Claim C6, checked on a concrete input: full-throttle input 1 for one
second at speed 75 from the arena center lands the paddle at the clamped
upper bound y = 92. -/
theorem paddle_clamped_check :
    (∃ e ∈ ([{ paddle := some { side := Side.Left, width := (4 : ℚ), height := 16 },
               transform := some ⟨2, 50, 0⟩ }] : World),
      ∃ t : Transform,
        e.paddle = some { side := Side.Left, width := (4 : ℚ), height := 16 } ∧
        e.transform = some t ∧
        (92 : ℚ) = clamp (t.y + 1 * 75 * 1) ((16 : ℚ) / 2) (ARENA_HEIGHT - (16 : ℚ) / 2)) ∧
    ((16 : ℚ) = PADDLE_HEIGHT → (8 : ℚ) ≤ 92 ∧ (92 : ℚ) ≤ 92) :=
  paddle_clamped 75 (fun _ => 1) 1
    [{ paddle := some { side := Side.Left, width := 4, height := 16 },
       transform := some ⟨2, 50, 0⟩ }]
    { paddle := some { side := Side.Left, width := 4, height := 16 },
      transform := some ⟨2, 92, 0⟩ }
    (by decide) { side := Side.Left, width := 4, height := 16 } ⟨2, 92, 0⟩
    (by decide) (by decide)

end DwarvesInSpace
